import Mathlib

/-!
Verification development for the dl_har_model repository: the HAR
evaluation loop (eval.py) and the AttendAndDiscriminate architecture
(models/AttendAndDiscriminate.py).

The evaluation loop is embedded over exact rational arithmetic; tensors
become nested lists, the data loader becomes a list of batches, and the
model under evaluation is a parameter producing one logits row per
sample.  Fallible steps of the Python code (NameError on an unbound
variable, IndexError on an empty array, ValueError from numpy
concatenate over an empty list) are modelled by Option.
-/

namespace DlHar

/-- One batch yielded by the data loader: `data` is the input tensor of
shape (samples, time, channels) and `target` holds one integer label per
sample (`target.view(-1)` in the code). -/
structure Batch where
  data : List (List (List ℚ))
  target : List Int
deriving DecidableEq

/-- The underlying dataset of a loader.  `split` models the `prefix`
attribute of the dataset object, which tags the split as
"train", "val" or "test". -/
structure Dataset where
  split : String
deriving DecidableEq

/-- A DataLoader: the dataset it wraps plus the ordered batches it
yields (construction uses shuffle = False, so the order is fixed). -/
structure Loader where
  dataset : Dataset
  batches : List Batch
deriving DecidableEq

/-- `data.shape[1]`: the time dimension of the batch tensor, read off
the first sample of the (rectangular) batch. -/
def Batch.timeDim (b : Batch) : Nat :=
  (b.data.head?.getD []).length

/-- Index of the first maximal entry of a logits row, accumulator form.
torch.max over the class dimension returns the index of the first
maximal value. -/
def argmaxAux (best : ℚ) (bestIdx i : Nat) : List ℚ → Nat
  | [] => bestIdx
  | v :: rest =>
      if best < v then argmaxAux v i (i + 1) rest
      else argmaxAux best bestIdx (i + 1) rest

/-- Predicted class of one logits row: `torch.max(probabilities, 1)`
after `nn.Softmax(dim=1)`.  Softmax is strictly monotone on each row, so
the selected index is the argmax of the raw logits row. -/
def argmaxRow : List ℚ → Int
  | [] => 0
  | v :: rest => (argmaxAux v 0 1 rest : Nat)

/-- Number of positions where the two label sequences agree; the
numerator of sklearn metrics.accuracy_score. -/
def countEq : List Int → List Int → Nat
  | a :: as, b :: bs => (if a = b then 1 else 0) + countEq as bs
  | _, _ => 0

/-- sklearn metrics.accuracy_score over integer labels: fraction of
positions where prediction equals truth. -/
def accuracy_score (yTrue yPred : List Int) : ℚ :=
  (countEq yTrue yPred : ℚ) / (yTrue.length : ℚ)

/-- What eval_one_epoch computes after the batch loop: the accuracy
over the concatenated sequences, plus the concatenated true and
predicted label sequences themselves. -/
structure EvalResult where
  acc : ℚ
  yTrue : List Int
  yPred : List Int
deriving DecidableEq

/-- The tail of eval_one_epoch: np.concatenate both per-batch lists and
score them.  np.concatenate raises ValueError when handed an empty list
of arrays, which Option models as none. -/
def concatAndScore (yTrueB yPredB : List (List Int)) : Option EvalResult :=
  match yTrueB, yPredB with
  | [], _ => none
  | _, [] => none
  | _, _ =>
      some { acc := accuracy_score yTrueB.flatten yPredB.flatten
             yTrue := yTrueB.flatten
             yPred := yPredB.flatten }

/-- eval_one_epoch from eval.py, with the trained model abstracted as a
function from the batch tensor to its logits rows.  The batch loop
collects per-batch targets and argmax predictions in loader order; when
the dataset is tagged "test" the code then computes
ws = data.shape[1] - 1 from the variable `data` still bound to the LAST
batch (NameError if the loop never ran), builds
samples_invalid = [y_true[0][0]] * ws (IndexError if the first target
array is empty) and list-appends it to BOTH collections before
concatenation. -/
def eval_one_epoch (model : List (List (List ℚ)) → List (List ℚ))
    (loader : Loader) : Option EvalResult :=
  let yTrueB := loader.batches.map (fun b => b.target)
  let yPredB := loader.batches.map (fun b => (model b.data).map argmaxRow)
  if loader.dataset.split = "test" then
    match loader.batches.getLast? with
    | none => none
    | some lastBatch =>
        match yTrueB.head?.bind List.head? with
        | none => none
        | some firstLabel =>
            let ws := lastBatch.timeDim - 1
            let samplesInvalid := List.replicate ws firstLabel
            concatAndScore (yTrueB ++ [samplesInvalid]) (yPredB ++ [samplesInvalid])
  else
    concatAndScore yTrueB yPredB

theorem countEq_self (zs : List Int) : countEq zs zs = zs.length := by
  induction zs with
  | nil => rfl
  | cons z zs ih => simp [countEq, ih, Nat.add_comm]

theorem countEq_append_of_length_eq :
    ∀ (xs ys zs : List Int), xs.length = ys.length →
      countEq (xs ++ zs) (ys ++ zs) = countEq xs ys + zs.length
  | [], [], zs, _ => by simp [countEq, countEq_self]
  | [], _ :: _, _, h => by simp at h
  | _ :: _, [], _, h => by simp at h
  | x :: xs, y :: ys, zs, h => by
      have ih := countEq_append_of_length_eq xs ys zs (by simpa using h)
      show (if x = y then 1 else 0) + countEq (xs ++ zs) (ys ++ zs)
          = (if x = y then 1 else 0) + countEq xs ys + zs.length
      rw [ih, Nat.add_assoc]

theorem concatAndScore_of_ne_nil (t p : List (List Int)) (ht : t ≠ []) (hp : p ≠ []) :
    concatAndScore t p =
      some { acc := accuracy_score t.flatten p.flatten
             yTrue := t.flatten
             yPred := p.flatten } := by
  match t, p with
  | [], _ => exact absurd rfl ht
  | _ :: _, [] => exact absurd rfl hp
  | _ :: _, _ :: _ => rfl

/-- Closed form of eval_one_epoch on a non-test loader with at least one
batch: no padding step runs, the per-batch targets and predictions are
concatenated in loader order. -/
theorem eval_one_epoch_nontest_eq (model : List (List (List ℚ)) → List (List ℚ))
    (loader : Loader) (hs : loader.dataset.split ≠ "test")
    (hne : loader.batches ≠ []) :
    eval_one_epoch model loader =
      some { acc := accuracy_score
                ((loader.batches.map (fun b => b.target)).flatten)
                ((loader.batches.map (fun b => (model b.data).map argmaxRow)).flatten)
             yTrue := (loader.batches.map (fun b => b.target)).flatten
             yPred := (loader.batches.map (fun b => (model b.data).map argmaxRow)).flatten } := by
  rw [eval_one_epoch, if_neg hs]
  exact concatAndScore_of_ne_nil _ _ (by simpa using hne) (by simpa using hne)

/-- Closed form of eval_one_epoch on a test loader with at least one
batch whose first target row is nonempty: the invalid-sample block of
length (timeDim of the last batch minus 1), filled with the first true
label, is appended AFTER the concatenated batch results on both sides. -/
theorem eval_one_epoch_test_eq (model : List (List (List ℚ)) → List (List ℚ))
    (ds : Dataset) (hs : ds.split = "test") (b0 : Batch) (rest : List Batch)
    (l0 : Int) (ls : List Int) (h0 : b0.target = l0 :: ls) :
    eval_one_epoch model { dataset := ds, batches := b0 :: rest } =
      some { acc := accuracy_score
                (((b0 :: rest).map (fun b => b.target)).flatten
                  ++ List.replicate (((b0 :: rest).getLast (List.cons_ne_nil b0 rest)).timeDim - 1) l0)
                (((b0 :: rest).map (fun b => (model b.data).map argmaxRow)).flatten
                  ++ List.replicate (((b0 :: rest).getLast (List.cons_ne_nil b0 rest)).timeDim - 1) l0)
             yTrue := ((b0 :: rest).map (fun b => b.target)).flatten
                  ++ List.replicate (((b0 :: rest).getLast (List.cons_ne_nil b0 rest)).timeDim - 1) l0
             yPred := ((b0 :: rest).map (fun b => (model b.data).map argmaxRow)).flatten
                  ++ List.replicate (((b0 :: rest).getLast (List.cons_ne_nil b0 rest)).timeDim - 1) l0 } := by
  have hgl : (b0 :: rest).getLast? = some ((b0 :: rest).getLast (List.cons_ne_nil b0 rest)) :=
    List.getLast?_eq_getLast_of_ne_nil _
  rw [eval_one_epoch]
  simp only [hs, if_pos, hgl, List.map_cons, List.head?_cons, Option.some_bind, h0]
  rw [concatAndScore_of_ne_nil _ _ (by simp) (by simp)]
  simp [List.flatten_append]

/-- C9: on a loader that yields zero batches, eval_one_epoch does not
return a metrics record at all: the Python run raises (NameError on the
unbound loop variable in the test branch, ValueError from
np.concatenate over an empty list otherwise) before any metrics tuple
is built, for every dataset split.  In the embedding the run yields
none. -/
theorem eval_one_epoch_empty_loader_raises
    (model : List (List (List ℚ)) → List (List ℚ)) (loader : Loader)
    (hempty : loader.batches = []) :
    eval_one_epoch model loader = none := by
  rw [eval_one_epoch, hempty]
  by_cases hs : loader.dataset.split = "test" <;> simp [hs, concatAndScore]

/-- Witness for C9: the empty test-split loader and the empty
train-split loader both make eval_one_epoch fail instead of returning
zero-valued metrics. -/
theorem eval_one_epoch_empty_loader_raises_witness :
    eval_one_epoch (fun _ => []) { dataset := { split := "test" }, batches := [] } = none
    ∧ eval_one_epoch (fun _ => []) { dataset := { split := "train" }, batches := [] } = none :=
  ⟨eval_one_epoch_empty_loader_raises _ _ rfl,
   eval_one_epoch_empty_loader_raises _ _ rfl⟩

/-- C1: the claim (and the comment in the code) says the
(window_size - 1) copies of the first true label are placed at the
BEGINNING of the true and predicted label sequences.  The code instead
list-appends samples_invalid after the per-batch results and then
concatenates, so the copies land at the END.  Concrete run: a test
loader with one batch of two samples, window size 3, targets [5, 6];
the returned true-label sequence is [5, 6] ++ [5, 5] (padding last) and
differs from the prepended sequence [5, 5] ++ [5, 6] the claim
describes.  The code comment says the invalid samples belong at the
beginning of the test sequence, so the code contradicts its own
documentation. -/
theorem eval_test_padding_appended_not_prepended :
    (eval_one_epoch (fun d => d.map (fun _ => [(1 : ℚ), 0]))
        { dataset := { split := "test" },
          batches := [{ data := [[[0], [0], [0]], [[0], [0], [0]]], target := [5, 6] }] }).map
        EvalResult.yTrue
      = some ([5, 6] ++ List.replicate 2 5)
    ∧ (eval_one_epoch (fun d => d.map (fun _ => [(1 : ℚ), 0]))
        { dataset := { split := "test" },
          batches := [{ data := [[[0], [0], [0]], [[0], [0], [0]]], target := [5, 6] }] }).map
        EvalResult.yTrue
      ≠ some (List.replicate 2 5 ++ [5, 6]) := by
  constructor
  · decide
  · decide

/-- C8: on a non-test loader with at least one batch, eval_one_epoch
returns the per-sample argmax predictions concatenated in loader order,
with no padding, so their number is exactly the total number of samples
in the loader.  The hypothesis hlen is the model contract: the model
emits one logits row per sample of the batch tensor. -/
theorem eval_nontest_pred_length
    (model : List (List (List ℚ)) → List (List ℚ)) (loader : Loader)
    (hs : loader.dataset.split ≠ "test") (hne : loader.batches ≠ [])
    (hlen : ∀ b ∈ loader.batches, (model b.data).length = b.data.length) :
    ∃ r, eval_one_epoch model loader = some r ∧
      r.yPred = (loader.batches.map (fun b => (model b.data).map argmaxRow)).flatten ∧
      r.yPred.length = (loader.batches.map (fun b => b.data.length)).sum := by
  refine ⟨_, eval_one_epoch_nontest_eq model loader hs hne, rfl, ?_⟩
  rw [List.length_flatten, List.map_map]
  congr 1
  refine List.map_congr_left (fun b hb => ?_)
  simp [hlen b hb]

/-- Witness for C8: a two-batch validation loader with three samples in
total yields exactly three predictions in loader order. -/
theorem eval_nontest_pred_length_witness :
    ∃ r, eval_one_epoch (fun d => d.map (fun _ => [(1 : ℚ), 0]))
        { dataset := { split := "val" },
          batches := [{ data := [[[0], [0]], [[1], [1]]], target := [1, 0] },
                      { data := [[[2], [2]]], target := [1] }] } = some r ∧
      r.yPred = [0, 0, 0] ∧ r.yPred.length = 3 := by
  obtain ⟨r, h1, h2, h3⟩ :=
    eval_nontest_pred_length (fun d => d.map (fun _ => [(1 : ℚ), 0]))
      { dataset := { split := "val" },
        batches := [{ data := [[[0], [0]], [[1], [1]]], target := [1, 0] },
                    { data := [[[2], [2]]], target := [1] }] }
      (by decide) (by decide) (by intro b hb; simp)
  exact ⟨r, h1, by simpa using h2, by simpa using h3⟩

/-- C3: on a test loader with at least one batch, both returned label
sequences have length N + (W - 1), where N is the total count of raw
per-window predictions over all batches and W is the time dimension of
the last batch tensor.  hlen is the model and criterion contract (one
logits row per target entry, as CrossEntropyLoss enforces batch per
batch), hfirst says the first target row is nonempty (what a real
loader batch guarantees), and hW says the last window has at least one
time step, so the Nat subtraction W - 1 agrees with the integer one of
the claim. -/
theorem eval_test_output_lengths
    (model : List (List (List ℚ)) → List (List ℚ)) (loader : Loader)
    (hs : loader.dataset.split = "test") (hne : loader.batches ≠ [])
    (hfirst : (loader.batches.head hne).target ≠ [])
    (hlen : ∀ b ∈ loader.batches, (model b.data).length = b.target.length)
    (hW : 1 ≤ (loader.batches.getLast hne).timeDim) :
    ∃ r, eval_one_epoch model loader = some r ∧
      r.yPred.length
        = (loader.batches.map (fun b => (model b.data).length)).sum
            + ((loader.batches.getLast hne).timeDim - 1) ∧
      r.yTrue.length
        = (loader.batches.map (fun b => (model b.data).length)).sum
            + ((loader.batches.getLast hne).timeDim - 1) := by
  rcases loader with ⟨ds, bs⟩
  dsimp only at hs hne hfirst hlen hW ⊢
  obtain ⟨b0, rest, rfl⟩ := List.exists_cons_of_ne_nil hne
  have hfirst' : b0.target ≠ [] := hfirst
  obtain ⟨l0, ls, h0⟩ := List.exists_cons_of_ne_nil hfirst'
  refine ⟨_, eval_one_epoch_test_eq model ds hs b0 rest l0 ls h0, ?_, ?_⟩
  · simp only [List.length_append, List.length_replicate, List.length_flatten,
      List.map_map]
    congr 2
    refine List.map_congr_left (fun b _ => ?_)
    simp
  · simp only [List.length_append, List.length_replicate, List.length_flatten,
      List.map_map]
    congr 2
    refine List.map_congr_left (fun b hb => ?_)
    simp [hlen b hb]

/-- Witness for C3: one test batch of two samples with window size 3
gives sequences of length 2 + (3 - 1) = 4. -/
theorem eval_test_output_lengths_witness :
    ∃ r, eval_one_epoch (fun d => d.map (fun _ => [(1 : ℚ), 0]))
        { dataset := { split := "test" },
          batches := [{ data := [[[0], [0], [0]], [[1], [1], [1]]], target := [5, 6] }] }
          = some r ∧
      r.yPred.length = 4 ∧ r.yTrue.length = 4 := by
  obtain ⟨r, h1, h2, h3⟩ :=
    eval_test_output_lengths (fun d => d.map (fun _ => [(1 : ℚ), 0]))
      { dataset := { split := "test" },
        batches := [{ data := [[[0], [0], [0]], [[1], [1], [1]]], target := [5, 6] }] }
      rfl (by decide) (by decide) (by decide) (by decide)
  exact ⟨r, h1, by simpa using h2, by simpa using h3⟩

/-- C10: on a test loader, the invalid-sample block carries the SAME
label value (the first true label) in the true and in the predicted
sequence, the returned accuracy is computed over the padded sequences,
and every padded position contributes one matching position to the
metric numerator: countEq over the padded sequences exceeds countEq
over the raw sequences by exactly the padding length, and the two
sequences agree pointwise on the whole padded region. -/
theorem eval_test_padding_scored_correct
    (model : List (List (List ℚ)) → List (List ℚ)) (loader : Loader)
    (hs : loader.dataset.split = "test") (hne : loader.batches ≠ [])
    (hfirst : (loader.batches.head hne).target ≠ [])
    (hlen : ∀ b ∈ loader.batches, (model b.data).length = b.target.length) :
    ∃ r, eval_one_epoch model loader = some r ∧
      ∃ t0 p0 pad,
        pad = List.replicate ((loader.batches.getLast hne).timeDim - 1)
            ((loader.batches.head hne).target.head hfirst) ∧
        r.yTrue = t0 ++ pad ∧ r.yPred = p0 ++ pad ∧
        t0.length = p0.length ∧
        countEq r.yTrue r.yPred = countEq t0 p0 + pad.length ∧
        (∀ i, t0.length ≤ i → i < t0.length + pad.length →
          r.yTrue.getD i 0 = r.yPred.getD i 0) ∧
        r.acc = accuracy_score r.yTrue r.yPred := by
  rcases loader with ⟨ds, bs⟩
  dsimp only at hs hne hfirst hlen ⊢
  obtain ⟨b0, rest, rfl⟩ := List.exists_cons_of_ne_nil hne
  have hfirst' : b0.target ≠ [] := hfirst
  obtain ⟨l0, ls, h0⟩ := List.exists_cons_of_ne_nil hfirst'
  have hlen0 : ((b0 :: rest).map (fun b => b.target)).flatten.length
      = ((b0 :: rest).map (fun b => (model b.data).map argmaxRow)).flatten.length := by
    simp only [List.length_flatten, List.map_map]
    congr 1
    refine List.map_congr_left (fun b hb => ?_)
    simp [hlen b hb]
  refine ⟨_, eval_one_epoch_test_eq model ds hs b0 rest l0 ls h0,
    ((b0 :: rest).map (fun b => b.target)).flatten,
    ((b0 :: rest).map (fun b => (model b.data).map argmaxRow)).flatten,
    List.replicate (((b0 :: rest).getLast (List.cons_ne_nil b0 rest)).timeDim - 1) l0,
    by simp [h0], rfl, rfl, hlen0,
    countEq_append_of_length_eq _ _ _ hlen0, ?_, rfl⟩
  intro i hi hilt
  show (((b0 :: rest).map (fun b => b.target)).flatten ++ _).getD i 0
      = (((b0 :: rest).map (fun b => (model b.data).map argmaxRow)).flatten ++ _).getD i 0
  rw [List.getD_append_right _ _ _ _ hi,
    List.getD_append_right _ _ _ _ (by omega : (((b0 :: rest).map
      (fun b => (model b.data).map argmaxRow)).flatten).length ≤ i),
    hlen0]

/-- Witness for C10: concrete test loader; the padded sequences are
[5, 6, 5, 5] and [0, 0, 5, 5], the pad block [5, 5] is identical in
both, and the two padded positions add 2 matches to the accuracy
numerator. -/
theorem eval_test_padding_scored_correct_witness :
    ∃ r, eval_one_epoch (fun d => d.map (fun _ => [(1 : ℚ), 0]))
        { dataset := { split := "test" },
          batches := [{ data := [[[0], [0], [0]], [[1], [1], [1]]], target := [5, 6] }] }
          = some r ∧
      ∃ t0 p0 pad,
        pad = List.replicate 2 5 ∧
        r.yTrue = t0 ++ pad ∧ r.yPred = p0 ++ pad ∧
        t0.length = p0.length ∧
        countEq r.yTrue r.yPred = countEq t0 p0 + pad.length ∧
        (∀ i, t0.length ≤ i → i < t0.length + pad.length →
          r.yTrue.getD i 0 = r.yPred.getD i 0) ∧
        r.acc = accuracy_score r.yTrue r.yPred := by
  obtain ⟨r, h1, t0, p0, pad, hpad, h2⟩ :=
    eval_test_padding_scored_correct (fun d => d.map (fun _ => [(1 : ℚ), 0]))
      { dataset := { split := "test" },
        batches := [{ data := [[[0], [0], [0]], [[1], [1], [1]]], target := [5, 6] }] }
      rfl (by decide) (by decide) (by decide)
  exact ⟨r, h1, t0, p0, pad, by simpa using hpad, h2⟩

/-- A state dict at the granularity that strict load_state_dict checks:
parameter name to tensor shape. -/
abbrev StateDict : Type := List (String × List Nat)

/-- A torch checkpoint file: a dict from top-level keys (such as
"model_state_dict") to state dicts. -/
abbrev Checkpoint : Type := List (String × StateDict)

/-- os.path.join for the one call site in eval_model, where the second
component is a relative file name. -/
def osPathJoin (a b : String) : String :=
  if a.endsWith "/" || a.isEmpty then a ++ b else a ++ "/" ++ b

/-- Strict nn.Module.load_state_dict: succeeds iff the saved dict holds
every live parameter under the same name with the same shape and brings
no unexpected keys; missing keys, unexpected keys and shape mismatches
raise RuntimeError. -/
def loadStateDictOk (live saved : StateDict) : Bool :=
  live.all (fun p => saved.lookup p.1 == some p.2)
    && saved.all (fun p => (live.lookup p.1).isSome)

/-- The ways the checkpoint phase of eval_model can raise. -/
inductive CkptError
  | fileNotFound
  | keyError
  | stateDictMismatch
deriving DecidableEq

/-- The checkpoint phase of eval_model: torch.load of
path_checkpoints/checkpoint_best.pth (FileNotFoundError when the file
is absent), the dict access under key "model_state_dict" (KeyError when
absent), then strict load_state_dict into the live model.  The
filesystem is a map from paths to checkpoint contents. -/
def loadBestCheckpoint (fs : String → Option Checkpoint)
    (pathCheckpoints : String) (live : StateDict) : Except CkptError StateDict :=
  match fs (osPathJoin pathCheckpoints "checkpoint_best.pth") with
  | none => Except.error CkptError.fileNotFound
  | some ckpt =>
      match ckpt.lookup "model_state_dict" with
      | none => Except.error CkptError.keyError
      | some sd =>
          if loadStateDictOk live sd then Except.ok sd
          else Except.error CkptError.stateDictMismatch

/-- eval_model: the checkpoint phase runs before the evaluation pass
and sits inside no try/except, so any load failure propagates and the
metrics tuple is never produced; the inference pass that follows a
successful restore is abstracted as runEval on the restored
parameters. -/
def eval_model (M : Type) (fs : String → Option Checkpoint)
    (pathCheckpoints : String) (live : StateDict)
    (runEval : StateDict → M) : Except CkptError M :=
  match loadBestCheckpoint fs pathCheckpoints live with
  | Except.error e => Except.error e
  | Except.ok sd => Except.ok (runEval sd)

/-- C7: eval_model reads path_checkpoints/checkpoint_best.pth and uses
the state dict stored under key "model_state_dict"; a missing
checkpoint file, and a parameter name or shape mismatch against the
live model, are fatal: the error propagates uncaught, there is no retry
or fallback, and no metrics value is returned.  On a successful load
the restored dict is exactly the one under that key. -/
theorem eval_model_checkpoint_contract (M : Type)
    (fs : String → Option Checkpoint) (dir : String) (live : StateDict)
    (runEval : StateDict → M) :
    (fs (osPathJoin dir "checkpoint_best.pth") = none →
      eval_model M fs dir live runEval = Except.error CkptError.fileNotFound)
    ∧ (∀ ckpt sd, fs (osPathJoin dir "checkpoint_best.pth") = some ckpt →
        ckpt.lookup "model_state_dict" = some sd →
        loadStateDictOk live sd = false →
        eval_model M fs dir live runEval = Except.error CkptError.stateDictMismatch)
    ∧ (∀ e, eval_model M fs dir live runEval = Except.error e →
        ∀ m, eval_model M fs dir live runEval ≠ Except.ok m)
    ∧ (∀ ckpt sd, fs (osPathJoin dir "checkpoint_best.pth") = some ckpt →
        ckpt.lookup "model_state_dict" = some sd →
        loadStateDictOk live sd = true →
        eval_model M fs dir live runEval = Except.ok (runEval sd)) := by
  refine ⟨?_, ?_, ?_, ?_⟩
  · intro h
    simp [eval_model, loadBestCheckpoint, h]
  · intro ckpt sd h1 h2 h3
    simp [eval_model, loadBestCheckpoint, h1, h2, h3]
  · intro e he m hm
    rw [he] at hm
    exact Except.noConfusion hm
  · intro ckpt sd h1 h2 h3
    simp [eval_model, loadBestCheckpoint, h1, h2, h3]

/-- Witness for C7: with a filesystem holding no files at all, the run
fails with fileNotFound and returns no metrics. -/
theorem eval_model_checkpoint_contract_witness :
    eval_model Nat (fun _ => none) "ckpts" [] (fun _ => 0)
        = Except.error CkptError.fileNotFound
    ∧ eval_model Nat (fun _ => none) "ckpts" [] (fun _ => 0) ≠ Except.ok 0 :=
  ⟨(eval_model_checkpoint_contract Nat (fun _ => none) "ckpts" [] (fun _ => 0)).1 rfl,
   (eval_model_checkpoint_contract Nat (fun _ => none) "ckpts" [] (fun _ => 0)).2.2.1
     CkptError.fileNotFound
     ((eval_model_checkpoint_contract Nat (fun _ => none) "ckpts" [] (fun _ => 0)).1 rfl) 0⟩

/-- Number of query/key output channels in SelfAttention.__init__:
n_channels // div when n_channels > 1, else n_channels (the edge case
avoiding a zero-width projection). -/
def qkChannels (nChannels d : Nat) : Nat :=
  if 1 < nChannels then nChannels / d else nChannels

/-- A kernel-size-1 Conv1d as built by the conv1d helper: a pointwise
linear map over channels plus a bias per output channel.  The
Kaiming-normal initialization only fixes a sampling distribution, so
the weights stay arbitrary here. -/
structure Conv1x1 (K : Type) (ci co : Nat) where
  weight : Matrix (Fin co) (Fin ci) K
  bias : Fin co → K

/-- Applying a kernel-size-1 Conv1d to a (channels, positions) tensor. -/
def conv1x1Apply {K : Type} [CommRing K] {ci co n : Nat}
    (c : Conv1x1 K ci co) (x : Matrix (Fin ci) (Fin n) K) :
    Matrix (Fin co) (Fin n) K :=
  fun o t => (∑ i, c.weight o i * x i t) + c.bias o

/-- The parameters of the SelfAttention module: query, key and value
convolutions plus the learned scalar gamma, which
nn.Parameter(torch.tensor([0.])) initializes to zero. -/
structure SelfAttention (K : Type) (nChannels d : Nat) where
  query : Conv1x1 K nChannels (qkChannels nChannels d)
  key : Conv1x1 K nChannels (qkChannels nChannels d)
  value : Conv1x1 K nChannels nChannels
  gamma : K

/-- Softmax over dim 1 of the (batch, n, n) attention score tensor, one
batch element at a time: within each column the exponentials are
normalized over the row index.  The exponential map is a parameter so
that the definition stays generic over the scalar field. -/
def softmaxDim1 {K : Type} [Field K] (exp : K → K) {a b : Nat}
    (m : Matrix (Fin a) (Fin b) K) : Matrix (Fin a) (Fin b) K :=
  fun i j => exp (m i j) / (∑ k, exp (m k j))

/-- SelfAttention.forward on a batched input whose trailing spatial
dimensions are already flattened into one axis of length n (the code
flattens with x.view and restores the original shape at the end, which
the fixed-shape representation absorbs): f = query(x), g = key(x),
h = value(x), beta = softmax(bmm(f^T, g), dim=1), and the result is
gamma * bmm(h, beta) + x. -/
def saForward {K : Type} [Field K] (exp : K → K) {bt nc d n : Nat}
    (sa : SelfAttention K nc d)
    (x : Fin bt → Matrix (Fin nc) (Fin n) K) :
    Fin bt → Matrix (Fin nc) (Fin n) K :=
  fun b =>
    let f := conv1x1Apply sa.query (x b)
    let g := conv1x1Apply sa.key (x b)
    let hv := conv1x1Apply sa.value (x b)
    let beta := softmaxDim1 exp (f.transpose * g)
    fun c t => sa.gamma * (hv * beta) c t + x b c t

/-- C6: with the learned scalar gamma equal to its initialization value
0, SelfAttention.forward returns its input unchanged on every input of
valid shape, whatever the convolution weights and the exponential map
are: the block starts as an identity pass-through. -/
theorem selfattention_gamma_zero_identity (K : Type) [Field K]
    (exp : K → K) (bt nc d n : Nat) (sa : SelfAttention K nc d)
    (hg : sa.gamma = 0) (x : Fin bt → Matrix (Fin nc) (Fin n) K) :
    saForward exp sa x = x := by
  funext b
  ext c t
  simp [saForward, hg]

/-- Witness for C6: a concrete one-channel SelfAttention instance with
nonzero weights but gamma = 0 maps a concrete input to itself. -/
theorem selfattention_gamma_zero_identity_witness :
    saForward (fun q : ℚ => q)
      ({ query := { weight := fun _ _ => 2, bias := fun _ => 3 }
         key := { weight := fun _ _ => 5, bias := fun _ => 7 }
         value := { weight := fun _ _ => 11, bias := fun _ => 13 }
         gamma := 0 } : SelfAttention ℚ 1 1)
      (fun _ : Fin 1 => (fun _ _ => 37 : Matrix (Fin 1) (Fin 1) ℚ))
    = (fun _ : Fin 1 => (fun _ _ => 37 : Matrix (Fin 1) (Fin 1) ℚ)) :=
  selfattention_gamma_zero_identity ℚ (fun q => q) 1 1 1 1 _ rfl _

/-- Constructor configuration of FeatureExtractor; the dropout rates,
the activation choice and sa_div do not affect tensor shapes. -/
structure FEConfig where
  input_dim : Nat
  hidden_dim : Nat
  filter_num : Nat
  filter_size : Nat
  enc_num_layers : Nat
  enc_is_bidirectional : Bool
deriving DecidableEq

/-- Length of the time axis after nn.Conv2d with kernel (filter_size, 1)
and no padding: t - (filter_size - 1), defined only when the kernel
fits (torch raises otherwise). -/
def convOutTime (t ks : Nat) : Option Nat :=
  if ks ≤ t then some (t - (ks - 1)) else none

/-- Per-step output feature count of nn.GRU: doubled when the
bidirectional flag is set (torch documentation: D * hidden_size with
D = 2 for bidirectional). -/
def gruOutFeatures (c : FEConfig) : Nat :=
  if c.enc_is_bidirectional then 2 * c.hidden_dim else c.hidden_dim

/-- Input dimension of the TemporalAttention scoring layer as
constructed in FeatureExtractor.__init__: the call
TemporalAttention(hidden_dim) builds nn.Linear(hidden_dim, 1). -/
def taFcInFeatures (c : FEConfig) : Nat := c.hidden_dim

/-- Shape semantics of FeatureExtractor.forward on a (bt, t, ch) input:
four valid convolutions along the time axis, self-attention preserving
every shape, the permute and reshape to (time, bt, filter_num * ch),
the GRU whose configured input size is filter_num * input_dim and whose
per-step output width is gruOutFeatures, and the TemporalAttention
collapse, whose nn.Linear(hidden_dim, 1) applies only when the last
dimension equals its in_features.  Returns the output shape
(bt, features), or none when a layer raises. -/
def feForwardShape (c : FEConfig) (bt t ch : Nat) : Option (Nat × Nat) :=
  (convOutTime t c.filter_size).bind fun t1 =>
  (convOutTime t1 c.filter_size).bind fun t2 =>
  (convOutTime t2 c.filter_size).bind fun t3 =>
  (convOutTime t3 c.filter_size).bind fun _ =>
  if c.filter_num * ch = c.filter_num * c.input_dim then
    if gruOutFeatures c = taFcInFeatures c then
      some (bt, gruOutFeatures c)
    else none
  else none

/-- The default-size configuration with the bidirectional flag set. -/
def cfgBidir : FEConfig :=
  { input_dim := 9
    hidden_dim := 128
    filter_num := 64
    filter_size := 5
    enc_num_layers := 2
    enc_is_bidirectional := true }

/-- Counterexample for C2 as stated: with the default architecture
sizes and enc_is_bidirectional = true, the TemporalAttention linear
layer expects hidden_dim = 128 input features while the recurrent
encoder emits 2 * 128 = 256 per step, so the dimension does NOT match
the doubled count and forward fails on a valid (4, 24, 9) batch instead
of succeeding. -/
theorem bidirectional_ta_matches_refuted :
    ¬ (taFcInFeatures cfgBidir = gruOutFeatures cfgBidir
      ∧ (feForwardShape cfgBidir 4 24 9).isSome = true) := by decide

/-- C2 amended: when enc_is_bidirectional = true the recurrent encoder
does emit 2 * hidden_dim features per step, but the TemporalAttention
linear layer was constructed with input dimension hidden_dim, so for
every positive hidden_dim the two counts differ and
FeatureExtractor.forward fails on every input shape, where the original
claim asserted that they match and that forward succeeds. -/
theorem bidirectional_ta_mismatch (c : FEConfig)
    (hb : c.enc_is_bidirectional = true) (hh : 1 ≤ c.hidden_dim) :
    gruOutFeatures c = 2 * c.hidden_dim
    ∧ taFcInFeatures c ≠ gruOutFeatures c
    ∧ ∀ bt t ch, feForwardShape c bt t ch = none := by
  have hg : gruOutFeatures c = 2 * c.hidden_dim := by simp [gruOutFeatures, hb]
  have hne : ¬ (gruOutFeatures c = taFcInFeatures c) := by
    rw [hg]
    unfold taFcInFeatures
    omega
  refine ⟨hg, fun hcl => hne hcl.symm, ?_⟩
  intro bt t ch
  unfold feForwardShape
  rcases convOutTime t c.filter_size with _ | t1
  · rfl
  simp only [Option.some_bind]
  rcases convOutTime t1 c.filter_size with _ | t2
  · rfl
  simp only [Option.some_bind]
  rcases convOutTime t2 c.filter_size with _ | t3
  · rfl
  simp only [Option.some_bind]
  rcases convOutTime t3 c.filter_size with _ | t4
  · rfl
  simp only [Option.some_bind]
  simp [hne]

/-- Witness for C2 amended, at the default sizes with the bidirectional
flag set: the scoring layer dimension differs from the doubled feature
count and forward fails on the valid (4, 24, 9) batch. -/
theorem bidirectional_ta_mismatch_witness :
    taFcInFeatures cfgBidir ≠ gruOutFeatures cfgBidir
    ∧ feForwardShape cfgBidir 4 24 9 = none :=
  ⟨(bidirectional_ta_mismatch cfgBidir rfl (by decide)).2.1,
   (bidirectional_ta_mismatch cfgBidir rfl (by decide)).2.2 4 24 9⟩

/-- Sum of squares of a feature row: the squared euclidean norm that
torch.norm(feature, p=2, dim=1) takes the square root of. -/
def sumSq {K : Type} [CommRing K] (v : List K) : K :=
  (v.map (fun x => x * x)).sum

/-- The L2 norm of a row.  The square-root map is a parameter so that
the definition stays generic over the scalar field; the theorems
instantiate it with Real.sqrt. -/
def l2norm {K : Type} [CommRing K] (sqrt : K → K) (v : List K) : K :=
  sqrt (sumSq v)

/-- One row of feature.div(torch.norm(feature, p=2, dim=1,
keepdim=True).expand_as(feature)): every entry divided by the L2 norm
of its row. -/
def l2normalizeRow {K : Type} [Field K] (sqrt : K → K) (v : List K) : List K :=
  v.map (fun x => x / l2norm sqrt v)

/-- Row-wise normalization of the (batch, hidden_dim) feature tensor. -/
def l2normalize {K : Type} [Field K] (sqrt : K → K) (m : List (List K)) :
    List (List K) :=
  m.map (l2normalizeRow sqrt)

/-- The linear Classifier head: weight rows and biases. -/
structure LinearLayer (K : Type) where
  weight : List (List K)
  bias : List K

/-- Dot product of a weight row with a feature row. -/
def dotProd {K : Type} [CommRing K] : List K → List K → K
  | a :: as, b :: bs => a * b + dotProd as bs
  | _, _ => 0

/-- nn.Linear on one feature row: one output per (weight row, bias)
pair. -/
def linearApplyRow {K : Type} [CommRing K] (L : LinearLayer K) (v : List K) :
    List K :=
  (L.weight.zip L.bias).map (fun wb => dotProd wb.1 v + wb.2)

/-- Classifier.forward on the whole batch, one logits row per sample. -/
def classifierForward {K : Type} [CommRing K] (L : LinearLayer K)
    (m : List (List K)) : List (List K) :=
  m.map (linearApplyRow L)

/-- AttendAndDiscriminate.forward: feature = fe(x), z = feature divided
by its per-row L2 norm, out = dropout(feature), logits =
classifier(out), returning the pair (z, logits).  The feature extractor
and the dropout mask application are parameters: dropout is stochastic
in training mode and the identity in eval mode, and the container code
is the same either way. -/
def aadForward {K : Type} [Field K] {α : Type} (sqrt : K → K)
    (fe : α → List (List K)) (dropout : List (List K) → List (List K))
    (classifier : LinearLayer K) (x : α) :
    List (List K) × List (List K) :=
  let feature := fe x
  let z := l2normalize sqrt feature
  let out := dropout feature
  let logits := classifierForward classifier out
  (z, logits)

theorem sumSq_cons {K : Type} [CommRing K] (x : K) (v : List K) :
    sumSq (x :: v) = x * x + sumSq v := by
  simp [sumSq]

theorem sumSq_nonneg (v : List ℝ) : 0 ≤ sumSq v := by
  induction v with
  | nil => simp [sumSq]
  | cons x v ih =>
      rw [sumSq_cons]
      exact add_nonneg (mul_self_nonneg x) ih

theorem sumSq_map_div (v : List ℝ) (c : ℝ) :
    sumSq (v.map (fun x => x / c)) = sumSq v / (c * c) := by
  induction v with
  | nil => simp [sumSq]
  | cons x v ih =>
      rw [List.map_cons, sumSq_cons, sumSq_cons, ih, div_mul_div_comm, add_div]

/-- C4: every row of the embedding z returned by
AttendAndDiscriminate.forward has L2 norm 1 up to the 1e-5 tolerance
(the norm is exactly 1 in exact arithmetic), whenever every extracted
feature row has nonzero squared norm; real-number rows model finite
float rows. -/
theorem aad_embedding_unit_norm {α : Type} (fe : α → List (List ℝ))
    (dropout : List (List ℝ) → List (List ℝ)) (classifier : LinearLayer ℝ)
    (x : α) (hrow : ∀ row ∈ fe x, sumSq row ≠ 0) :
    ∀ z ∈ (aadForward Real.sqrt fe dropout classifier x).1,
      |l2norm Real.sqrt z - 1| ≤ 1 / 100000 := by
  intro z hz
  simp only [aadForward, l2normalize, List.mem_map] at hz
  obtain ⟨row, hm, rfl⟩ := hz
  have hS : sumSq row ≠ 0 := hrow row hm
  have hS0 : 0 ≤ sumSq row := sumSq_nonneg row
  have hnorm : sumSq (l2normalizeRow Real.sqrt row) = 1 := by
    unfold l2normalizeRow l2norm
    rw [sumSq_map_div, Real.mul_self_sqrt hS0, div_self hS]
  have hone : l2norm Real.sqrt (l2normalizeRow Real.sqrt row) = 1 := by
    unfold l2norm
    rw [hnorm, Real.sqrt_one]
  rw [hone]
  norm_num

/-- Witness for C4: normalizing the feature row [3, 4] (squared norm
25) produces a row of L2 norm 1. -/
theorem aad_embedding_unit_norm_witness :
    |l2norm Real.sqrt (l2normalizeRow Real.sqrt [(3 : ℝ), 4]) - 1| ≤ 1 / 100000 := by
  have h := aad_embedding_unit_norm (fun _ : Unit => [[(3 : ℝ), 4]]) id
    { weight := [], bias := [] } ()
    (by
      intro row hm
      simp only [List.mem_singleton] at hm
      subst hm
      norm_num [sumSq])
  exact h (l2normalizeRow Real.sqrt [(3 : ℝ), 4]) (by simp [aadForward, l2normalize])

/-- C5: on every call, AttendAndDiscriminate.forward returns the pair
whose first component z is the L2-normalized feature embedding with no
dropout applied (identical under any two dropout maps) and whose second
component is the linear classifier applied to the dropout-perturbed
UN-normalized feature; both components are produced on every call. -/
theorem aad_forward_pair_contract {α : Type} (fe : α → List (List ℝ))
    (classifier : LinearLayer ℝ) (x : α)
    (dropout dropout2 : List (List ℝ) → List (List ℝ)) :
    (aadForward Real.sqrt fe dropout classifier x).1
        = l2normalize Real.sqrt (fe x)
    ∧ (aadForward Real.sqrt fe dropout classifier x).1
        = (aadForward Real.sqrt fe dropout2 classifier x).1
    ∧ (aadForward Real.sqrt fe dropout classifier x).2
        = classifierForward classifier (dropout (fe x))
    ∧ aadForward Real.sqrt fe dropout classifier x
        = (l2normalize Real.sqrt (fe x),
           classifierForward classifier (dropout (fe x))) :=
  ⟨rfl, rfl, rfl, rfl⟩

end DlHar
